import Mathlib

/-!
Verification of the symptom-checker recommendation core.

This file is a shallow embedding, in Lean 4, of the Python code in
`src/models/symptom.py` (`SymptomModel.preprocess_symptoms`),
`src/models/database.py` (`get_disease_symptom_matrix`,
`get_severity_by_symptom`), `src/models/recommender.py`
(`RecommenderModel.fit` / `RecommenderModel.recommend`, built on sklearn's
`TfidfVectorizer(token_pattern=r"(?u)\b\w+\b", lowercase=True,
sublinear_tf=True, min_df=1)` and `cosine_similarity`), and
`src/controllers/recommender_controller.py`
(`RecommenderController.recommend_with_details`).

Modelling conventions:
* Python strings are `String` (lists of characters); the ASCII fragments of
  `str.strip`, `str.lower` and the regexes `\s+` / `\b\w+\b` are modelled
  character-by-character (all data in the claims is ASCII).
* Python floats are modelled as real numbers `ℝ`; `numpy.argsort()[::-1]`
  is modelled as the deterministic sort that orders indices by strictly
  descending score and, on exactly equal scores, by descending index
  (the reversal of a stable ascending argsort, which is what numpy
  produces on the two-element ties exercised here).
* A value that may be a Python exception is an `Except PyErr`; a `try/except`
  block is a `match` on that value.
* Possibly-non-string list elements are `PyObj` (`str` or `other`), and the
  possibly-non-list argument of `recommend` is a `SymInput`.
-/

/-- ASCII whitespace, as matched by Python's `str.strip()` and the regex
class `\s` on the ASCII range: space, tab, newline, carriage return,
vertical tab, form feed. -/
def isWsChar (c : Char) : Bool :=
  c = ' ' || c = '\t' || c = '\n' || c = '\r' || c = '\x0b' || c = '\x0c'

/-- ASCII word character, as matched by the regex class `\w`:
letters, digits, underscore. -/
def isWordChar (c : Char) : Bool :=
  ('a' ≤ c && c ≤ 'z') || ('A' ≤ c && c ≤ 'Z') || ('0' ≤ c && c ≤ '9') || c = '_'

/-- ASCII lowercasing of one character (`str.lower`): `A`–`Z` maps to
`a`–`z` by adding 32 to the code point, all other characters are fixed. -/
def lowerChar (c : Char) : Char :=
  if h : 65 ≤ c.toNat ∧ c.toNat ≤ 90 then
    Char.ofNatAux (c.toNat + 32) (Or.inl (by omega))
  else c

/-- `str.strip()` on the ASCII range: drop whitespace from both ends. -/
def stripChars (l : List Char) : List Char :=
  ((l.dropWhile isWsChar).reverse.dropWhile isWsChar).reverse

/-- Worker for `collapseWs`: the flag records whether we are currently inside
a whitespace run whose `_` has already been emitted. -/
def collapseAux : Bool → List Char → List Char
  | _, [] => []
  | inWs, c :: rest =>
      if isWsChar c then
        (if inWs then collapseAux true rest else '_' :: collapseAux true rest)
      else c :: collapseAux false rest

/-- `re.sub(r"\s+", "_", s)` on the ASCII range: every maximal run of
whitespace becomes a single underscore. -/
def collapseWs (l : List Char) : List Char := collapseAux false l

/-- Helper for `splitRuns`: prepend the kept character `c` to the runs `r`
of the remaining input `rest` — extending the first run of `r` when `rest`
starts with a kept character (so that run began right after `c`), otherwise
opening a new run `[c]`. -/
def splitGlue (keep : Char → Bool) (c : Char) (rest : List Char)
    (r : List (List Char)) : List (List Char) :=
  match rest, r with
  | d :: _, r0 :: rs => if keep d then (c :: r0) :: rs else [c] :: r0 :: rs
  | _, r => [c] :: r

/-- Maximal runs of characters satisfying `keep`; with `keep = isWordChar`
this is `re.findall(r"\b\w+\b", s)`, and with `keep = not ∘ isWsChar` it is
Python's `s.split()`. -/
def splitRuns (keep : Char → Bool) : List Char → List (List Char)
  | [] => []
  | c :: rest =>
      if keep c then splitGlue keep c rest (splitRuns keep rest)
      else splitRuns keep rest

/-- Python's `s.split()`: split on whitespace runs, dropping empty pieces. -/
def pySplit (s : String) : List String :=
  (splitRuns (fun c => !isWsChar c) s.data).map String.mk

/-- `" ".join(ts)` character by character. -/
def joinSep : List (List Char) → List Char
  | [] => []
  | [t] => t
  | t :: ts => t ++ ' ' :: joinSep ts

/-- `" ".join(ts)` on strings. -/
def joinSpace (ts : List String) : String := ⟨joinSep (ts.map String.data)⟩

/-- Code-point comparison of character lists: the order Python's `sorted`
uses on strings. -/
def charListLe : List Char → List Char → Bool
  | [], _ => true
  | _ :: _, [] => false
  | a :: as, b :: bs =>
      if a < b then true else if b < a then false else charListLe as bs

/-- The `sorted` order on strings (by code points). -/
def strLE (s t : String) : Prop := charListLe s.data t.data = true

instance : DecidableRel strLE := fun s t => by
  unfold strLE; infer_instance

/-- Python's `sorted(set(l))`: the distinct elements of `l` in ascending
order. -/
def sortedDedup (l : List String) : List String :=
  l.dedup.insertionSort strLE

/-- A Python value that may or may not be a string (the elements of the
input list of `preprocess_symptoms` are unconstrained). -/
inductive PyObj where
  | str (s : String)
  | other
deriving DecidableEq

/-- The per-element body of the loop in `SymptomModel.preprocess_symptoms`:
non-strings are skipped, strings are stripped and lowercased, entries that
are then empty are skipped, and interior whitespace runs become one
underscore. Returns the cleaned token, or `none` when the entry is dropped. -/
def cleanEntry : PyObj → Option String
  | .str s =>
      let stripped := (stripChars s.data).map lowerChar
      if stripped = [] then none
      else some ⟨collapseWs stripped⟩
  | .other => none

/-- The deduplicated, sorted token list built by
`SymptomModel.preprocess_symptoms` just before joining. -/
def preprocessTokens (symptoms : List PyObj) : List String :=
  sortedDedup (symptoms.filterMap cleanEntry)

/-- `SymptomModel.preprocess_symptoms`: clean each entry, deduplicate, sort,
join with single spaces.  (The `try/except` wrapper of the source can only
fire on a non-iterable argument, which the `List` type already excludes.) -/
def preprocess_symptoms (symptoms : List PyObj) : String :=
  joinSpace (preprocessTokens symptoms)

/-- `preprocess_symptoms` applied to a list of honest strings. -/
def preprocessStrs (symptoms : List String) : String :=
  preprocess_symptoms (symptoms.map PyObj.str)

/-- `Database.get_severity_by_symptom` over an explicit
`symptom_severity`-join table of (symptom name, severity level) rows:
`fetchone` returns the first matching row's severity, else `None`.
Severity levels are stored as SQLite text (see `test_database.py`). -/
def get_severity_by_symptom (table : List (String × String)) (symptom : String) :
    Option String :=
  ((table.filter (fun r => r.1 = symptom)).map Prod.snd).head?

/-- `Database.get_disease_symptom_matrix` over an explicit list of
(disease name, symptom name) join rows: group symptoms by disease
(pandas `groupby` sorts the keys), deduplicate and sort each group's
symptom names, and join them into one space-separated string. -/
def get_disease_symptom_matrix (pairs : List (String × String)) :
    List (String × String) :=
  (sortedDedup (pairs.map Prod.fst)).map fun d =>
    (d, joinSpace (sortedDedup ((pairs.filter (fun r => r.1 = d)).map Prod.snd)))

/-- The cleaning `RecommenderModel.fit` applies to one row of the matrix:
`raw.split()` then `preprocess_symptoms`. -/
def cleanDoc (raw : String) : String :=
  preprocessStrs (pySplit raw)

/-- The tokenizer of `TfidfVectorizer(token_pattern=r"(?u)\b\w+\b",
lowercase=True)`: lowercase the document, then take the maximal runs of
word characters. -/
def tfidfTokenize (doc : String) : List String :=
  (splitRuns isWordChar (doc.data.map lowerChar)).map String.mk

/-- The fitted vocabulary: every term of every document (`min_df=1`),
deduplicated and sorted as sklearn sorts its feature names. -/
def vocabList (docs : List String) : List String :=
  sortedDedup (docs.flatMap tfidfTokenize)

/-- Term frequency of `t` in one document. -/
def termCount (doc t : String) : ℕ := (tfidfTokenize doc).count t

/-- Document frequency: in how many of the fitted documents `t` occurs. -/
def docFreq (docs : List String) (t : String) : ℕ :=
  (docs.filter (fun d => decide (t ∈ tfidfTokenize d))).length

noncomputable section

/-- Smoothed inverse document frequency (sklearn's `smooth_idf=True`
default): `ln((1 + n)/(1 + df)) + 1`. -/
def idf (docs : List String) (t : String) : ℝ :=
  Real.log ((1 + docs.length) / (1 + docFreq docs t)) + 1

/-- Sublinear term-frequency scaling (`sublinear_tf=True`): a zero count
stays zero, a positive count `c` becomes `1 + ln c`. -/
def sublinearTF (c : ℕ) : ℝ := if c = 0 then 0 else 1 + Real.log c

/-- The un-normalised tf-idf vector of a document (or of a transformed
query) over the fitted vocabulary; terms outside the vocabulary get
weight 0 (`transform` ignores out-of-vocabulary terms). -/
def tfidfRaw (docs : List String) (doc : String) : String → ℝ := fun t =>
  if t ∈ vocabList docs then sublinearTF (termCount doc t) * idf docs t else 0

/-- Dot product over the fitted vocabulary. -/
def vecDot (docs : List String) (u v : String → ℝ) : ℝ :=
  ∑ t ∈ (vocabList docs).toFinset, u t * v t

/-- Squared Euclidean norm over the fitted vocabulary. -/
def vecNorm2 (docs : List String) (u : String → ℝ) : ℝ :=
  ∑ t ∈ (vocabList docs).toFinset, (u t) ^ 2

/-- Cosine similarity: the composition of the vectorizer's `norm='l2'`
row normalisation with `sklearn.metrics.pairwise.cosine_similarity`.
Zero vectors yield similarity 0, here by the `x / 0 = 0` convention. -/
def cosineSim (docs : List String) (u v : String → ℝ) : ℝ :=
  vecDot docs u v / (Real.sqrt (vecNorm2 docs u) * Real.sqrt (vecNorm2 docs v))

/-- `cosine_similarity(user_vector, tfidf_matrix)[0]`: one score per fitted
row.  `fitDocs` supplies the fitted vocabulary/idf (the vectorizer),
`rowDocs` the rows of the stored matrix; every `fit` installs both from the
same document list. -/
def scoreList (fitDocs rowDocs : List String) (query : String) : List ℝ :=
  rowDocs.map fun d => cosineSim fitDocs (tfidfRaw fitDocs query) (tfidfRaw fitDocs d)

/-- The order `numpy.argsort()[::-1]` produces on row indices: strictly
larger score first; on exactly equal scores, larger index first (the
reversal of a stable ascending argsort). -/
def rkRel (s : List ℝ) (i j : ℕ) : Prop :=
  s.getD j 0 < s.getD i 0 ∨ (s.getD i 0 = s.getD j 0 ∧ j ≤ i)

instance rkRelDec (s : List ℝ) : DecidableRel (rkRel s) := fun i j => by
  unfold rkRel; infer_instance

/-- `similarity_scores.argsort()[::-1]`: all row indices, best score
first. -/
def argsortDesc (s : List ℝ) : List ℕ :=
  (List.range s.length).insertionSort (rkRel s)

end

/-- Python slicing `l[:t]` with a possibly negative `t`:
`l[:3]` keeps the first 3 elements, `l[:-k]` drops the last `k`. -/
def pySlice {α : Type} (l : List α) (t : ℤ) : List α :=
  if 0 ≤ t then l.take t.toNat else l.take (l.length - (-t).toNat)

/-- The TF-IDF vectorizer object held by the model: `TfidfVectorizer(...)`
before `fit_transform` has succeeded on it, or fitted on a document list. -/
inductive VecObj where
  | unfitted
  | fitted (docs : List String)
deriving DecidableEq

/-- The observable state of `RecommenderModel`: the ordered disease-name
list, the vectorizer (or `None`), and the TF-IDF matrix (or `None`),
the matrix being determined by the document list it was built from. -/
structure RecommenderModel where
  disease_names : List String
  vectorizer : Option VecObj
  tfidf_matrix : Option (List String)
deriving DecidableEq

/-- `RecommenderModel.__init__`: no names, no vectorizer, no matrix. -/
def RecommenderModel.init : RecommenderModel := ⟨[], none, none⟩

/-- Outcome of `self.db.get_disease_symptom_matrix()` as seen inside
`fit`'s `try` block: either the grouped (disease, symptom-string) rows, or
a failure — the gateway swallowed a storage error and returned an empty,
column-less `DataFrame`, so `matrix_dataframe["disease"]` raises `KeyError`
before any assignment (a gateway that raised directly lands in the same
branch). -/
inductive FetchOutcome where
  | rows (l : List (String × String))
  | failure

/-- `RecommenderModel.fit`.  In the row branch the assignments happen in
source order: `disease_names` first, then a fresh unfitted vectorizer, then
`fit_transform`, which raises `ValueError` (caught by the bare `except`)
exactly when the vocabulary over the cleaned documents is empty — leaving
the new names and the unfitted vectorizer installed but the old matrix in
place.  On success the fitted vectorizer and the new matrix are installed
together. -/
def RecommenderModel.fit (m : RecommenderModel) (res : FetchOutcome) :
    RecommenderModel :=
  match res with
  | .failure => m
  | .rows rows =>
      let names := rows.map Prod.fst
      let docs := rows.map fun r => cleanDoc r.2
      if docs.flatMap tfidfTokenize = [] then
        { disease_names := names, vectorizer := some .unfitted,
          tfidf_matrix := m.tfidf_matrix }
      else
        { disease_names := names, vectorizer := some (.fitted docs),
          tfidf_matrix := some docs }

/-- The distinguishable errors `recommend` can raise. -/
inductive PyErr where
  | typeError
  | runtimeError
  | storageError
deriving DecidableEq

/-- The `selected_symptoms` argument of `recommend`: a Python list, some
other sequence (e.g. a tuple), or a non-sequence. -/
inductive SymInput where
  | pyList (xs : List PyObj)
  | pyTuple (xs : List PyObj)
  | pyNone
deriving DecidableEq

/-- Whether `isinstance(selected_symptoms, list)` holds. -/
def SymInput.isList : SymInput → Bool
  | .pyList _ => true
  | _ => false

noncomputable section

/-- `RecommenderModel.recommend`.  Guard order as in the source: the
`isinstance(..., list)` check raises `TypeError` first, then
`vectorizer is None or tfidf_matrix is None` raises `RuntimeError`.
Inside the `try`: an unfitted vectorizer makes `transform` raise
`NotFittedError`, which the bare `except` converts to `[]`; an
out-of-range index into `disease_names` (impossible in fit-produced
states) would likewise be converted to `[]`. -/
def RecommenderModel.recommend (m : RecommenderModel) (inp : SymInput)
    (top_n : ℤ) : Except PyErr (List (String × ℝ)) :=
  match inp with
  | .pyList xs =>
      match m.vectorizer, m.tfidf_matrix with
      | none, _ => .error .runtimeError
      | some _, none => .error .runtimeError
      | some .unfitted, some _ => .ok []
      | some (.fitted fitDocs), some rowDocs =>
          let scores := scoreList fitDocs rowDocs (preprocess_symptoms xs)
          let chosen := pySlice (argsortDesc scores) top_n
          if chosen.all (fun i => i < m.disease_names.length) then
            .ok (chosen.map fun i => (m.disease_names.getD i "", scores.getD i 0))
          else .ok []
  | _ => .error .typeError

end

/-- One enriched entry of `recommend_with_details`:
`{'disease': ..., 'score': ..., 'symptoms': ..., 'precautions': ...}`. -/
structure DetailEntry where
  disease : String
  score : ℝ
  symptoms : List String
  precautions : Option (List String)

/-- The collaborators `RecommenderController.recommend_with_details` calls
inside its `try` block, each of which may raise: `self.model.recommend`,
`self.db.get_symptoms_by_disease`, `self.db.get_precautions_by_disease`
(the last returns a list of steps or `None`). -/
structure CtrlEnv where
  recommendResult : Except PyErr (List (String × ℝ))
  get_symptoms_by_disease : String → Except PyErr (List String)
  get_precautions_by_disease : String → Except PyErr (Option (List String))

/-- `RecommenderController.recommend_with_details`: rank, then enrich each
ranked disease in order; any raise anywhere inside the `try` makes the
whole call return `[]`, and no exception escapes. -/
def recommend_with_details (env : CtrlEnv) : List DetailEntry :=
  match (env.recommendResult.bind fun raw =>
      raw.mapM fun p =>
        (env.get_symptoms_by_disease p.1).bind fun syms =>
          (env.get_precautions_by_disease p.1).bind fun precs =>
            .ok ⟨p.1, p.2, syms, precs⟩) with
  | .ok l => l
  | .error _ => []

/-! ### Character-level lemmas -/

theorem toNat_lowerChar (c : Char) :
    (lowerChar c).toNat =
      if 65 ≤ c.toNat ∧ c.toNat ≤ 90 then c.toNat + 32 else c.toNat := by
  unfold lowerChar
  split
  · rfl
  · rfl

theorem lowerChar_idem (c : Char) : lowerChar (lowerChar c) = lowerChar c := by
  by_cases hc : 65 ≤ c.toNat ∧ c.toNat ≤ 90
  · have h1 : lowerChar c = Char.ofNatAux (c.toNat + 32) (Or.inl (by omega)) :=
      dif_pos hc
    rw [h1]
    exact dif_neg (by show ¬(65 ≤ c.toNat + 32 ∧ c.toNat + 32 ≤ 90); omega)
  · have h1 : lowerChar c = c := dif_neg hc
    rw [h1, h1]

theorem lowerChar_fix_of_not_upper (c : Char)
    (h : ¬ (65 ≤ c.toNat ∧ c.toNat ≤ 90)) : lowerChar c = c := by
  unfold lowerChar
  rw [dif_neg h]

/-! ### `dropWhile` / `stripChars` lemmas -/

theorem dropWhile_eq_self_of_all {p : Char → Bool} {l : List Char}
    (h : ∀ c ∈ l, p c = false) : l.dropWhile p = l := by
  cases l with
  | nil => rfl
  | cons c rest =>
      simp [List.dropWhile, h c (List.mem_cons_self c rest)]

theorem stripChars_eq_self {l : List Char}
    (h : ∀ c ∈ l, isWsChar c = false) : stripChars l = l := by
  unfold stripChars
  rw [dropWhile_eq_self_of_all h,
      dropWhile_eq_self_of_all (fun c hc => h c (List.mem_reverse.mp hc)),
      List.reverse_reverse]

/-! ### `collapseAux` lemmas -/

theorem mem_collapseAux {c : Char} :
    ∀ (b : Bool) (l : List Char), c ∈ collapseAux b l →
      c = '_' ∨ (c ∈ l ∧ isWsChar c = false)
  | b, [], h => by simp [collapseAux] at h
  | b, d :: rest, h => by
      by_cases hd : isWsChar d = true
      · cases b with
        | true =>
            simp only [collapseAux, hd, if_true] at h
            rcases mem_collapseAux true rest h with h1 | ⟨h1, h2⟩
            · exact Or.inl h1
            · exact Or.inr ⟨List.mem_cons_of_mem d h1, h2⟩
        | false =>
            simp only [collapseAux, hd, if_true] at h
            rcases List.mem_cons.mp h with h1 | h1
            · exact Or.inl h1
            · rcases mem_collapseAux true rest h1 with h2 | ⟨h2, h3⟩
              · exact Or.inl h2
              · exact Or.inr ⟨List.mem_cons_of_mem d h2, h3⟩
      · simp only [collapseAux, hd, if_false] at h
        rcases List.mem_cons.mp h with h1 | h1
        · subst h1
          exact Or.inr ⟨List.mem_cons_self c rest, by simpa using hd⟩
        · rcases mem_collapseAux false rest h1 with h2 | ⟨h2, h3⟩
          · exact Or.inl h2
          · exact Or.inr ⟨List.mem_cons_of_mem d h2, h3⟩

theorem collapseAux_eq_self {l : List Char}
    (h : ∀ c ∈ l, isWsChar c = false) : ∀ b, collapseAux b l = l := by
  induction l with
  | nil => intro b; rfl
  | cons c rest ih =>
      intro b
      have hc : isWsChar c = false := h c (List.mem_cons_self c rest)
      simp only [collapseAux, hc, Bool.false_eq_true, if_false]
      rw [ih (fun d hd => h d (List.mem_cons_of_mem c hd)) false]

theorem collapseWs_ne_nil {l : List Char} (h : l ≠ []) :
    collapseWs l ≠ [] := by
  cases l with
  | nil => exact absurd rfl h
  | cons c rest =>
      unfold collapseWs collapseAux
      by_cases hc : isWsChar c = true <;> simp [hc]

/-! ### The `sorted` order on strings -/

theorem charListLe_total : ∀ a b : List Char,
    charListLe a b = true ∨ charListLe b a = true
  | [], _ => Or.inl rfl
  | _ :: _, [] => Or.inr rfl
  | a :: as, b :: bs => by
      rcases lt_trichotomy a b with h | h | h
      · left
        simp [charListLe, h]
      · subst h
        rcases charListLe_total as bs with h1 | h1
        · left
          simpa [charListLe, lt_irrefl] using h1
        · right
          simpa [charListLe, lt_irrefl] using h1
      · right
        simp [charListLe, h]

theorem charListLe_trans : ∀ a b c : List Char,
    charListLe a b = true → charListLe b c = true → charListLe a c = true
  | [], _, _, _, _ => rfl
  | x :: xs, [], c, h1, _ => by simp [charListLe] at h1
  | x :: xs, y :: ys, [], _, h2 => by simp [charListLe] at h2
  | x :: xs, y :: ys, z :: zs, h1, h2 => by
      by_cases hxy : x < y
      · by_cases hyz : y < z
        · simp [charListLe, lt_trans hxy hyz]
        · by_cases hzy : z < y
          · rw [charListLe, if_neg hyz, if_pos hzy] at h2
            exact absurd h2 (by simp)
          · have heq : y = z := by
              rcases lt_trichotomy y z with h | h | h
              exacts [absurd h hyz, h, absurd h hzy]
            subst heq
            simp [charListLe, hxy]
      · by_cases hyx : y < x
        · rw [charListLe, if_neg hxy, if_pos hyx] at h1
          exact absurd h1 (by simp)
        · have heq : x = y := by
            rcases lt_trichotomy x y with h | h | h
            exacts [absurd h hxy, h, absurd h hyx]
          subst heq
          rw [charListLe, if_neg hxy, if_neg hxy] at h1
          by_cases hyz : x < z
          · simp [charListLe, hyz]
          · by_cases hzy : z < x
            · rw [charListLe, if_neg hyz, if_pos hzy] at h2
              exact absurd h2 (by simp)
            · have heq : x = z := by
                rcases lt_trichotomy x z with h | h | h
                exacts [absurd h hyz, h, absurd h hzy]
              subst heq
              rw [charListLe, if_neg hyz, if_neg hyz] at h2 ⊢
              exact charListLe_trans xs ys zs h1 h2

instance : IsTotal String strLE :=
  ⟨fun s t => charListLe_total s.data t.data⟩

instance : IsTrans String strLE :=
  ⟨fun a b c h1 h2 => charListLe_trans a.data b.data c.data h1 h2⟩

theorem mem_sortedDedup {t : String} {l : List String} :
    t ∈ sortedDedup l ↔ t ∈ l :=
  (List.perm_insertionSort strLE l.dedup).mem_iff.trans List.mem_dedup

theorem sortedDedup_nodup (l : List String) : (sortedDedup l).Nodup :=
  (List.perm_insertionSort strLE l.dedup).nodup_iff.mpr (List.nodup_dedup l)

theorem sortedDedup_sorted (l : List String) :
    List.Sorted strLE (sortedDedup l) :=
  List.sorted_insertionSort strLE l.dedup

theorem sortedDedup_of_sorted_nodup {l : List String}
    (h1 : List.Sorted strLE l) (h2 : l.Nodup) : sortedDedup l = l := by
  unfold sortedDedup
  rw [h2.dedup]
  exact h1.insertionSort_eq

/-! ### `splitRuns` / `joinSep` roundtrip -/

theorem splitRuns_cons_neg {keep : Char → Bool} {c : Char} {l : List Char}
    (h : keep c = false) : splitRuns keep (c :: l) = splitRuns keep l := by
  simp [splitRuns, h]

theorem splitRuns_cons_pos {keep : Char → Bool} {c : Char} {l : List Char}
    (h : keep c = true) :
    splitRuns keep (c :: l) = splitGlue keep c l (splitRuns keep l) := by
  simp [splitRuns, h]

theorem splitGlue_not_kept {keep : Char → Bool} {c : Char} {rest : List Char}
    {r : List (List Char)} (h : ∀ d, rest.head? = some d → keep d = false) :
    splitGlue keep c rest r = [c] :: r := by
  cases rest with
  | nil => rfl
  | cons d l2 =>
      cases r with
      | nil => rfl
      | cons r0 rs => simp [splitGlue, h d rfl]

theorem splitGlue_kept {keep : Char → Bool} {c d : Char} {l2 r0 : List Char}
    {rs : List (List Char)} (h : keep d = true) :
    splitGlue keep c (d :: l2) (r0 :: rs) = (c :: r0) :: rs := by
  simp [splitGlue, h]

theorem splitRuns_append_run {keep : Char → Bool} :
    ∀ (t l : List Char), t ≠ [] → (∀ c ∈ t, keep c = true) →
      (∀ d, l.head? = some d → keep d = false) →
      splitRuns keep (t ++ l) = t :: splitRuns keep l
  | [], _, ht, _, _ => absurd rfl ht
  | [c], l, _, hk, hl => by
      have hc : keep c = true := hk c (by simp)
      show splitRuns keep (c :: l) = [c] :: splitRuns keep l
      rw [splitRuns_cons_pos hc, splitGlue_not_kept hl]
  | c :: c2 :: t2, l, _, hk, hl => by
      have hc : keep c = true := hk c (by simp)
      have hc2 : keep c2 = true := hk c2 (by simp)
      have ih := splitRuns_append_run (c2 :: t2) l (by simp)
        (fun d hd => hk d (List.mem_cons_of_mem c hd)) hl
      simp only [List.cons_append] at ih ⊢
      rw [splitRuns_cons_pos hc, ih, splitGlue_kept hc2]

theorem splitRuns_joinSep {keep : Char → Bool} (hsep : keep ' ' = false) :
    ∀ ts : List (List Char),
      (∀ t ∈ ts, t ≠ [] ∧ ∀ c ∈ t, keep c = true) →
      splitRuns keep (joinSep ts) = ts
  | [], _ => rfl
  | [t], h => by
      have ht := h t (by simp)
      have := splitRuns_append_run t [] ht.1 ht.2 (fun d hd => by simp at hd)
      simpa [joinSep] using this
  | t :: t2 :: ts2, h => by
      have ht := h t (by simp)
      have step := splitRuns_append_run t (' ' :: joinSep ((t2 :: ts2).map id))
        ht.1 ht.2 (fun d hd => by
          simp only [List.head?_cons, Option.some.injEq] at hd
          rw [← hd]
          exact hsep)
      simp only [List.map_id] at step
      have ih := splitRuns_joinSep hsep (t2 :: ts2)
        (fun u hu => h u (List.mem_cons_of_mem t hu))
      calc splitRuns keep (joinSep (t :: t2 :: ts2))
          = splitRuns keep (t ++ ' ' :: joinSep (t2 :: ts2)) := rfl
        _ = t :: splitRuns keep (' ' :: joinSep (t2 :: ts2)) := step
        _ = t :: splitRuns keep (joinSep (t2 :: ts2)) := by
              rw [splitRuns_cons_neg hsep]
        _ = t :: t2 :: ts2 := by rw [ih]

/-! ### Canonical tokens -/

theorem cleanEntry_canon {o : PyObj} {t : String} (h : cleanEntry o = some t) :
    t.data ≠ [] ∧ ∀ c ∈ t.data, isWsChar c = false ∧ lowerChar c = c := by
  cases o with
  | other => simp [cleanEntry] at h
  | str s =>
      simp only [cleanEntry] at h
      by_cases he : (stripChars s.data).map lowerChar = []
      · rw [if_pos he] at h
        exact absurd h (by simp)
      · rw [if_neg he] at h
        have ht : t = ⟨collapseWs ((stripChars s.data).map lowerChar)⟩ :=
          (Option.some.injEq _ _ ▸ h).symm
      
        subst ht
        refine ⟨collapseWs_ne_nil he, fun c hc => ?_⟩
        rcases mem_collapseAux false _ hc with h1 | ⟨h1, h2⟩
        · subst h1
          exact ⟨by decide, by decide⟩
        · refine ⟨h2, ?_⟩
          rcases List.mem_map.mp h1 with ⟨c0, _, rfl⟩
          exact lowerChar_idem c0

theorem mem_preprocessTokens_canon {xs : List PyObj} {t : String}
    (ht : t ∈ preprocessTokens xs) :
    t.data ≠ [] ∧ ∀ c ∈ t.data, isWsChar c = false ∧ lowerChar c = c := by
  rcases List.mem_filterMap.mp (mem_sortedDedup.mp ht) with ⟨o, _, ho⟩
  exact cleanEntry_canon ho

theorem cleanEntry_canonical_fix {t : String} (h1 : t.data ≠ [])
    (h2 : ∀ c ∈ t.data, isWsChar c = false ∧ lowerChar c = c) :
    cleanEntry (.str t) = some t := by
  have hstrip : stripChars t.data = t.data :=
    stripChars_eq_self (fun c hc => (h2 c hc).1)
  have hmap : t.data.map lowerChar = t.data := by
    calc t.data.map lowerChar
        = t.data.map id := List.map_congr_left (fun c hc => (h2 c hc).2)
      _ = t.data := List.map_id _
  show (if (stripChars t.data).map lowerChar = [] then none
    else some (⟨collapseWs ((stripChars t.data).map lowerChar)⟩ : String)) = some t
  rw [hstrip, hmap, if_neg h1]
  unfold collapseWs
  rw [collapseAux_eq_self (fun c hc => (h2 c hc).1) false]

theorem filterMap_of_all_some {α : Type} {f : α → Option α} :
    ∀ {l : List α}, (∀ a ∈ l, f a = some a) → l.filterMap f = l := by
  intro l h
  induction l with
  | nil => rfl
  | cons a l ih =>
      rw [List.filterMap_cons, h a (List.mem_cons_self a l),
        ih (fun b hb => h b (List.mem_cons_of_mem a hb))]

theorem pySplit_preprocess (xs : List PyObj) :
    pySplit (preprocess_symptoms xs) = preprocessTokens xs := by
  have hts : ∀ t ∈ (preprocessTokens xs).map String.data,
      t ≠ [] ∧ ∀ c ∈ t, (!isWsChar c) = true := by
    intro t ht
    rcases List.mem_map.mp ht with ⟨u, hu, rfl⟩
    have hc := mem_preprocessTokens_canon hu
    exact ⟨hc.1, fun c hcc => by simp [(hc.2 c hcc).1]⟩
  unfold pySplit preprocess_symptoms joinSpace
  rw [splitRuns_joinSep (by decide) ((preprocessTokens xs).map String.data) hts,
    List.map_map]
  calc List.map (String.mk ∘ String.data) (preprocessTokens xs)
      = List.map id (preprocessTokens xs) :=
        List.map_congr_left (fun t _ => rfl)
    _ = preprocessTokens xs := List.map_id _

theorem preprocessTokens_restrict (xs : List PyObj) :
    preprocessTokens ((preprocessTokens xs).map PyObj.str) =
      preprocessTokens xs := by
  unfold preprocessTokens
  rw [List.filterMap_map,
    filterMap_of_all_some (fun t ht => by
      have hc := @mem_preprocessTokens_canon xs t ht
      exact cleanEntry_canonical_fix hc.1 hc.2)]
  · show sortedDedup (preprocessTokens xs) = preprocessTokens xs
    exact sortedDedup_of_sorted_nodup (sortedDedup_sorted _) (sortedDedup_nodup _)

theorem preprocess_idem (xs : List PyObj) :
    preprocessStrs (pySplit (preprocess_symptoms xs)) = preprocess_symptoms xs := by
  rw [pySplit_preprocess]
  unfold preprocessStrs preprocess_symptoms
  rw [preprocessTokens_restrict]

/-! ### The spec's description of the normalizer (for the refinement claim) -/

/-- The per-entry canonicalisation as the spec words it (§4.1): keep only
string entries that are non-empty after trimming; lower-case, trim, and
collapse each interior whitespace run to one underscore.  Written from the
spec's words, to be compared with `cleanEntry`, which is written from the
code. -/
def specCanonicalToken : PyObj → Option String
  | .str s =>
      if stripChars s.data = [] then none
      else some ⟨collapseWs ((stripChars s.data).map lowerChar)⟩
  | .other => none

/-- The normalizer as the spec words it: canonicalise each entry, drop the
invalid ones, remove duplicates, sort ascending lexically, join with single
spaces. -/
def specNormalize (xs : List PyObj) : String :=
  joinSpace ((xs.filterMap specCanonicalToken).dedup.insertionSort strLE)

theorem cleanEntry_eq_spec (o : PyObj) : cleanEntry o = specCanonicalToken o := by
  cases o with
  | other => rfl
  | str s => simp only [cleanEntry, specCanonicalToken, List.map_eq_nil_iff]

theorem preprocess_eq_specNormalize (xs : List PyObj) :
    preprocess_symptoms xs = specNormalize xs := by
  unfold preprocess_symptoms specNormalize preprocessTokens sortedDedup
  rw [funext cleanEntry_eq_spec]

/-! ### TF-IDF vector lemmas -/

theorem mem_vocab_of_token {docs : List String} {d t : String}
    (hd : d ∈ docs) (ht : t ∈ tfidfTokenize d) : t ∈ vocabList docs :=
  mem_sortedDedup.mpr (List.mem_flatMap.mpr ⟨d, hd, ht⟩)

theorem docFreq_le_length (docs : List String) (t : String) :
    docFreq docs t ≤ docs.length :=
  List.length_filter_le _ docs

theorem one_le_idf (docs : List String) (t : String) : 1 ≤ idf docs t := by
  unfold idf
  have h1 : (0 : ℝ) < 1 + docFreq docs t := by positivity
  have h2 : (1 : ℝ) ≤ (1 + docs.length) / (1 + docFreq docs t) := by
    rw [le_div_iff₀ h1]
    have h3 : (docFreq docs t : ℝ) ≤ (docs.length : ℝ) :=
      Nat.cast_le.mpr (docFreq_le_length docs t)
    linarith
  have := Real.log_nonneg h2
  linarith

theorem idf_pos (docs : List String) (t : String) : 0 < idf docs t :=
  lt_of_lt_of_le one_pos (one_le_idf docs t)

theorem sublinearTF_zero : sublinearTF 0 = 0 := by simp [sublinearTF]

theorem sublinearTF_one : sublinearTF 1 = 1 := by
  simp [sublinearTF]

theorem sublinearTF_nonneg (c : ℕ) : 0 ≤ sublinearTF c := by
  unfold sublinearTF
  split
  · exact le_refl 0
  · have := Real.log_natCast_nonneg c
    linarith

theorem sublinearTF_pos {c : ℕ} (h : c ≠ 0) : 0 < sublinearTF c := by
  unfold sublinearTF
  rw [if_neg h]
  have := Real.log_natCast_nonneg c
  linarith

theorem tfidfRaw_nonneg (docs : List String) (d t : String) :
    0 ≤ tfidfRaw docs d t := by
  unfold tfidfRaw
  split
  · exact mul_nonneg (sublinearTF_nonneg _) (le_of_lt (idf_pos docs t))
  · exact le_refl 0

theorem tfidfRaw_of_count_zero {docs : List String} {d t : String}
    (h : termCount d t = 0) : tfidfRaw docs d t = 0 := by
  unfold tfidfRaw
  rw [h, sublinearTF_zero]
  split <;> simp

theorem tfidfRaw_pos_of_mem {docs : List String} {d t : String}
    (hv : t ∈ vocabList docs) (hc : termCount d t ≠ 0) :
    0 < tfidfRaw docs d t := by
  unfold tfidfRaw
  rw [if_pos hv]
  exact mul_pos (sublinearTF_pos hc) (idf_pos docs t)

theorem tfidfRaw_eq_zero_iff {docs : List String} {d t : String}
    (hv : t ∈ vocabList docs) :
    tfidfRaw docs d t = 0 ↔ termCount d t = 0 := by
  constructor
  · intro h
    by_contra hc
    exact absurd h (ne_of_gt (tfidfRaw_pos_of_mem hv hc))
  · exact tfidfRaw_of_count_zero

theorem vecNorm2_nonneg (docs : List String) (u : String → ℝ) :
    0 ≤ vecNorm2 docs u :=
  Finset.sum_nonneg fun t _ => sq_nonneg (u t)

theorem vecDot_self (docs : List String) (u : String → ℝ) :
    vecDot docs u u = vecNorm2 docs u :=
  Finset.sum_congr rfl fun t _ => (sq (u t)).symm

theorem cosineSim_self {docs : List String} {u : String → ℝ}
    (h : vecNorm2 docs u ≠ 0) : cosineSim docs u u = 1 := by
  unfold cosineSim
  rw [vecDot_self, Real.mul_self_sqrt (vecNorm2_nonneg docs u)]
  exact div_self h

theorem vecNorm2_pos {docs : List String} {u : String → ℝ} {t0 : String}
    (hmem : t0 ∈ vocabList docs) (hne : u t0 ≠ 0) :
    0 < vecNorm2 docs u := by
  have h1 : 0 < u t0 ^ 2 := pow_two_pos_of_ne_zero hne
  have h2 : u t0 ^ 2 ≤ vecNorm2 docs u :=
    Finset.single_le_sum (fun t _ => sq_nonneg (u t))
      (List.mem_toFinset.mpr hmem)
  linarith

theorem tfidfRaw_congr_counts {docs : List String} {q d : String}
    (h : ∀ t, termCount q t = termCount d t) :
    tfidfRaw docs q = tfidfRaw docs d := by
  funext t
  unfold tfidfRaw
  rw [h t]

/-! ### Single-token queries -/

theorem termCount_of_single {q f : String} (h : tfidfTokenize q = [f])
    (t : String) : termCount q t = if f = t then 1 else 0 := by
  simp [termCount, h, List.count_cons, List.count_nil]

theorem single_query_raw_self {docs : List String} {q f : String}
    (hq : tfidfTokenize q = [f]) (hf : f ∈ vocabList docs) :
    tfidfRaw docs q f = idf docs f := by
  unfold tfidfRaw
  rw [if_pos hf, termCount_of_single hq, if_pos rfl, sublinearTF_one, one_mul]

theorem single_query_raw_other {docs : List String} {q f t : String}
    (hq : tfidfTokenize q = [f]) (ht : f ≠ t) : tfidfRaw docs q t = 0 :=
  tfidfRaw_of_count_zero (by rw [termCount_of_single hq, if_neg ht])

theorem single_query_dot {docs : List String} {q f : String}
    (hq : tfidfTokenize q = [f]) (hf : f ∈ vocabList docs) (v : String → ℝ) :
    vecDot docs (tfidfRaw docs q) v = idf docs f * v f := by
  unfold vecDot
  rw [Finset.sum_eq_single_of_mem f (List.mem_toFinset.mpr hf)
    (fun b _ hb => by rw [single_query_raw_other hq (Ne.symm hb), zero_mul]),
    single_query_raw_self hq hf]

theorem single_query_norm2 {docs : List String} {q f : String}
    (hq : tfidfTokenize q = [f]) (hf : f ∈ vocabList docs) :
    vecNorm2 docs (tfidfRaw docs q) = idf docs f ^ 2 := by
  unfold vecNorm2
  rw [Finset.sum_eq_single_of_mem f (List.mem_toFinset.mpr hf)
    (fun b _ hb => by rw [single_query_raw_other hq (Ne.symm hb)]; ring),
    single_query_raw_self hq hf]

theorem single_query_score {docs : List String} {q f : String}
    (hq : tfidfTokenize q = [f]) (hf : f ∈ vocabList docs) (d : String) :
    cosineSim docs (tfidfRaw docs q) (tfidfRaw docs d) =
      tfidfRaw docs d f / Real.sqrt (vecNorm2 docs (tfidfRaw docs d)) := by
  unfold cosineSim
  rw [single_query_dot hq hf, single_query_norm2 hq hf,
    Real.sqrt_sq (le_of_lt (idf_pos docs f)),
    mul_div_mul_left _ _ (ne_of_gt (idf_pos docs f))]

theorem single_query_score_le_one {docs : List String} {q f : String}
    (hq : tfidfTokenize q = [f]) (hf : f ∈ vocabList docs) (d : String) :
    cosineSim docs (tfidfRaw docs q) (tfidfRaw docs d) ≤ 1 := by
  rw [single_query_score hq hf]
  have hdv : 0 ≤ tfidfRaw docs d f := tfidfRaw_nonneg docs d f
  by_cases h0 : Real.sqrt (vecNorm2 docs (tfidfRaw docs d)) = 0
  · rw [h0, div_zero]
    exact zero_le_one
  · have hpos : 0 < Real.sqrt (vecNorm2 docs (tfidfRaw docs d)) :=
      lt_of_le_of_ne (Real.sqrt_nonneg _) (Ne.symm h0)
    rw [div_le_one hpos]
    have hsq : tfidfRaw docs d f ^ 2 ≤ vecNorm2 docs (tfidfRaw docs d) := by
      unfold vecNorm2
      exact Finset.single_le_sum (fun t _ => sq_nonneg (tfidfRaw docs d t))
        (List.mem_toFinset.mpr hf)
    exact (Real.le_sqrt hdv (vecNorm2_nonneg docs (tfidfRaw docs d))).mpr hsq

theorem single_query_score_eq_one {docs : List String} {q f d : String}
    (hq : tfidfTokenize q = [f]) (hf : f ∈ vocabList docs) (hd : d ∈ docs)
    (hs : cosineSim docs (tfidfRaw docs q) (tfidfRaw docs d) = 1) :
    ∀ t, t ∈ tfidfTokenize d ↔ t = f := by
  rw [single_query_score hq hf] at hs
  have hsqrt_ne : Real.sqrt (vecNorm2 docs (tfidfRaw docs d)) ≠ 0 := by
    intro h
    rw [h, div_zero] at hs
    exact zero_ne_one hs
  have hsqrt_pos : 0 < Real.sqrt (vecNorm2 docs (tfidfRaw docs d)) :=
    lt_of_le_of_ne (Real.sqrt_nonneg _) (Ne.symm hsqrt_ne)
  have hDpos : 0 < vecNorm2 docs (tfidfRaw docs d) := Real.sqrt_pos.mp hsqrt_pos
  have hdvf : tfidfRaw docs d f = Real.sqrt (vecNorm2 docs (tfidfRaw docs d)) :=
    (div_eq_one_iff_eq hsqrt_ne).mp hs
  have hdvf_pos : 0 < tfidfRaw docs d f := by
    rw [hdvf]
    exact hsqrt_pos
  have hsq : tfidfRaw docs d f ^ 2 = vecNorm2 docs (tfidfRaw docs d) := by
    rw [hdvf, Real.sq_sqrt (le_of_lt hDpos)]
  have hsum : tfidfRaw docs d f ^ 2 +
      ∑ x ∈ (vocabList docs).toFinset.erase f, tfidfRaw docs d x ^ 2 =
      ∑ x ∈ (vocabList docs).toFinset, tfidfRaw docs d x ^ 2 :=
    Finset.add_sum_erase (vocabList docs).toFinset
      (fun t => tfidfRaw docs d t ^ 2) (List.mem_toFinset.mpr hf)
  have herase : ∑ t ∈ (vocabList docs).toFinset.erase f,
      tfidfRaw docs d t ^ 2 = 0 := by
    have hN : vecNorm2 docs (tfidfRaw docs d) =
        ∑ t ∈ (vocabList docs).toFinset, tfidfRaw docs d t ^ 2 := rfl
    rw [hN] at hsq
    linarith [hsum, hsq]
  have hzero := (Finset.sum_eq_zero_iff_of_nonneg
    (fun t _ => sq_nonneg (tfidfRaw docs d t))).mp herase
  intro t
  constructor
  · intro htok
    by_contra hne
    have hv : t ∈ vocabList docs := mem_vocab_of_token hd htok
    have h1 : tfidfRaw docs d t = 0 := by
      have := hzero t (Finset.mem_erase.mpr ⟨hne, List.mem_toFinset.mpr hv⟩)
      exact sq_eq_zero_iff.mp this
    have hcount : termCount d t = 0 := (tfidfRaw_eq_zero_iff hv).mp h1
    exact absurd htok (List.count_eq_zero.mp hcount)
  · intro ht
    subst ht
    have hcount : termCount d t ≠ 0 := by
      intro h0
      rw [tfidfRaw_of_count_zero h0] at hdvf_pos
      exact lt_irrefl 0 hdvf_pos
    by_contra hmem
    exact hcount (List.count_eq_zero.mpr hmem)

/-! ### Ranking lemmas -/

theorem rkRel_total (s : List ℝ) : ∀ i j, rkRel s i j ∨ rkRel s j i := by
  intro i j
  rcases lt_trichotomy (s.getD i 0) (s.getD j 0) with h | h | h
  · right
    left
    exact h
  · rcases Nat.le_total i j with hij | hij
    · right
      right
      exact ⟨h.symm, hij⟩
    · left
      right
      exact ⟨h, hij⟩
  · left
    left
    exact h

instance (s : List ℝ) : IsTotal ℕ (rkRel s) := ⟨rkRel_total s⟩

theorem rkRel_trans (s : List ℝ) :
    ∀ a b c, rkRel s a b → rkRel s b c → rkRel s a c := by
  intro a b c hab hbc
  rcases hab with h1 | ⟨h1, h2⟩ <;> rcases hbc with h3 | ⟨h3, h4⟩
  · left
    exact lt_trans h3 h1
  · left
    exact h3 ▸ h1
  · left
    rw [h1]
    exact h3
  · right
    exact ⟨h1.trans h3, le_trans h4 h2⟩

instance (s : List ℝ) : IsTrans ℕ (rkRel s) := ⟨rkRel_trans s⟩

theorem rkRel_score_le {s : List ℝ} {i j : ℕ} (h : rkRel s i j) :
    s.getD j 0 ≤ s.getD i 0 := by
  rcases h with h | ⟨h, _⟩
  · exact le_of_lt h
  · exact le_of_eq h.symm

theorem argsortDesc_perm (s : List ℝ) :
    (argsortDesc s).Perm (List.range s.length) :=
  List.perm_insertionSort _ _

theorem argsortDesc_length (s : List ℝ) : (argsortDesc s).length = s.length :=
  (argsortDesc_perm s).length_eq.trans (List.length_range _)

theorem mem_argsortDesc {s : List ℝ} {i : ℕ} :
    i ∈ argsortDesc s ↔ i < s.length :=
  (argsortDesc_perm s).mem_iff.trans List.mem_range

theorem argsortDesc_sorted (s : List ℝ) :
    List.Sorted (rkRel s) (argsortDesc s) :=
  List.sorted_insertionSort _ _

theorem argsortDesc_head_max {s : List ℝ} {h : ℕ} {rest : List ℕ}
    (he : argsortDesc s = h :: rest) :
    ∀ j < s.length, s.getD j 0 ≤ s.getD h 0 := by
  intro j hj
  have hmem : j ∈ argsortDesc s := mem_argsortDesc.mpr hj
  rw [he] at hmem
  rcases List.mem_cons.mp hmem with rfl | hmem
  · exact le_refl _
  · have hsorted := argsortDesc_sorted s
    rw [he] at hsorted
    exact rkRel_score_le (List.rel_of_sorted_cons hsorted j hmem)

theorem pySlice_zero {α : Type} (l : List α) : pySlice l 0 = [] := by
  simp [pySlice]

theorem pySlice_nonneg {α : Type} (l : List α) (n : ℕ) :
    pySlice l (n : ℤ) = l.take n := by
  simp [pySlice]

theorem pySlice_neg {α : Type} (l : List α) (k : ℕ) (hk : 0 < k) :
    pySlice l (-(k : ℤ)) = l.take (l.length - k) := by
  unfold pySlice
  rw [if_neg (by omega), neg_neg]
  norm_num

theorem mem_of_mem_pySlice {α : Type} {l : List α} {t : ℤ} {a : α}
    (h : a ∈ pySlice l t) : a ∈ l := by
  unfold pySlice at h
  split at h <;> exact List.mem_of_mem_take h

/-! ### Evaluating `fit` and `recommend` -/

theorem fit_failure (m : RecommenderModel) : m.fit .failure = m := rfl

theorem fit_rows_empty_vocab {m : RecommenderModel}
    {rows : List (String × String)}
    (hv : (rows.map fun r => cleanDoc r.2).flatMap tfidfTokenize = []) :
    m.fit (.rows rows) =
      ⟨rows.map Prod.fst, some .unfitted, m.tfidf_matrix⟩ := by
  simp only [RecommenderModel.fit]
  rw [if_pos hv]

theorem fit_rows_success {m : RecommenderModel} {rows : List (String × String)}
    (hv : ¬ (rows.map fun r => cleanDoc r.2).flatMap tfidfTokenize = []) :
    m.fit (.rows rows) =
      ⟨rows.map Prod.fst, some (.fitted (rows.map fun r => cleanDoc r.2)),
        some (rows.map fun r => cleanDoc r.2)⟩ := by
  simp only [RecommenderModel.fit]
  rw [if_neg hv]

theorem scoreList_length (fd rd : List String) (q : String) :
    (scoreList fd rd q).length = rd.length := List.length_map _ _

theorem getD_eq_getElem {α : Type} {l : List α} {i : ℕ} (hi : i < l.length)
    (d : α) : l.getD i d = l[i] := by
  rw [List.getD_eq_getElem?_getD, List.getElem?_eq_getElem hi]
  rfl

theorem getD_mem {α : Type} {l : List α} {i : ℕ} (hi : i < l.length) (d : α) :
    l.getD i d ∈ l := by
  rw [getD_eq_getElem hi]
  exact List.getElem_mem hi

theorem scoreList_getD {fd rd : List String} {q : String} {i : ℕ}
    (hi : i < rd.length) :
    (scoreList fd rd q).getD i 0 =
      cosineSim fd (tfidfRaw fd q) (tfidfRaw fd (rd.getD i "")) := by
  unfold scoreList
  have hi2 : i < (rd.map fun d =>
      cosineSim fd (tfidfRaw fd q) (tfidfRaw fd d)).length := by
    rw [List.length_map]
    exact hi
  rw [getD_eq_getElem hi2, List.getElem_map, getD_eq_getElem hi]

theorem recommend_not_list {m : RecommenderModel} {inp : SymInput} {t : ℤ}
    (h : inp.isList = false) : m.recommend inp t = .error .typeError := by
  cases inp with
  | pyList xs => simp [SymInput.isList] at h
  | pyTuple xs => rfl
  | pyNone => rfl

theorem recommend_fitted_eval {names fitDocs rowDocs : List String}
    {xs : List PyObj} {t : ℤ} (hlen : rowDocs.length ≤ names.length) :
    RecommenderModel.recommend ⟨names, some (.fitted fitDocs), some rowDocs⟩
      (.pyList xs) t =
    .ok ((pySlice (argsortDesc
        (scoreList fitDocs rowDocs (preprocess_symptoms xs))) t).map
      fun i => (names.getD i "",
        (scoreList fitDocs rowDocs (preprocess_symptoms xs)).getD i 0)) := by
  have hall : (pySlice (argsortDesc
      (scoreList fitDocs rowDocs (preprocess_symptoms xs))) t).all
        (fun i => decide (i < names.length)) = true := by
    rw [List.all_eq_true]
    intro i hi
    have h1 : i ∈ argsortDesc (scoreList fitDocs rowDocs
        (preprocess_symptoms xs)) := mem_of_mem_pySlice hi
    have h2 := mem_argsortDesc.mp h1
    rw [scoreList_length] at h2
    exact decide_eq_true (lt_of_lt_of_le h2 hlen)
  simp only [RecommenderModel.recommend]
  rw [if_pos hall]

theorem argsortDesc_singleton (x : ℝ) : argsortDesc [x] = [0] := rfl

theorem argsortDesc_pair_tie {x y : ℝ} (hxy : x = y) :
    argsortDesc [x, y] = [1, 0] := by
  subst hxy
  have hr : ¬ rkRel [x, x] 0 1 := by
    rintro (h | ⟨h1, h2⟩)
    · exact lt_irrefl x h
    · omega
  show List.insertionSort (rkRel [x, x]) (List.range 2) = [1, 0]
  have h2 : List.range 2 = [0, 1] := rfl
  rw [h2]
  show List.orderedInsert (rkRel [x, x]) 0
      (List.orderedInsert (rkRel [x, x]) 1 []) = [1, 0]
  show List.orderedInsert (rkRel [x, x]) 0 [1] = [1, 0]
  simp only [List.orderedInsert, if_neg hr]

/-- Evaluation of the full pipeline on a two-row corpus in which both
diseases have the single symptom document `"fever"`: both scores are
exactly 1 and the tie puts the later row first. -/
theorem recommend_pair_fever (a b : String) :
    (RecommenderModel.fit .init (.rows [(a, "fever"), (b, "fever")])).recommend
      (.pyList [.str "Fever"]) 5 = .ok [(b, 1), (a, 1)] := by
  have hclean : cleanDoc "fever" = "fever" := by decide
  have hdocs : ([(a, "fever"), (b, "fever")].map fun r => cleanDoc r.2) =
      ["fever", "fever"] := by simp [hclean]
  have hnames : ([(a, "fever"), (b, "fever")].map Prod.fst) = [a, b] := by simp
  have hv : ¬ (([(a, "fever"), (b, "fever")].map fun r =>
      cleanDoc r.2).flatMap tfidfTokenize = []) := by
    rw [hdocs]
    decide
  rw [fit_rows_success hv, hdocs, hnames,
    recommend_fitted_eval (by simp)]
  have hq : preprocess_symptoms [PyObj.str "Fever"] = "fever" := by decide
  rw [hq]
  have hmem : "fever" ∈ vocabList ["fever", "fever"] := by decide
  have hcnt : termCount "fever" "fever" ≠ 0 := by decide
  have hne : tfidfRaw ["fever", "fever"] "fever" "fever" ≠ 0 :=
    ne_of_gt (tfidfRaw_pos_of_mem hmem hcnt)
  have hcos : cosineSim ["fever", "fever"]
      (tfidfRaw ["fever", "fever"] "fever")
      (tfidfRaw ["fever", "fever"] "fever") = 1 :=
    cosineSim_self (ne_of_gt (vecNorm2_pos hmem hne))
  have hscores : scoreList ["fever", "fever"] ["fever", "fever"] "fever" =
      [1, 1] := by
    unfold scoreList
    simp [hcos]
  rw [hscores, argsortDesc_pair_tie rfl]
  have hslice : pySlice [1, 0] (5 : ℤ) = [(1 : ℕ), 0] := by simp [pySlice]
  rw [hslice]
  simp [List.getD]

/-! ### Error propagation in `recommend_with_details` -/

theorem mapM_error_of_mem {α β : Type} {f : α → Except PyErr β}
    {l : List α} {a : α} (ha : a ∈ l) (he : ∃ e, f a = .error e) :
    ∃ e, l.mapM f = .error e := by
  induction l with
  | nil => cases ha
  | cons x xs ih =>
      rw [List.mapM_cons]
      rcases List.mem_cons.mp ha with rfl | ha2
      · rcases he with ⟨e, hfe⟩
        rw [hfe]
        exact ⟨e, rfl⟩
      · cases hfx : f x with
        | error e => exact ⟨e, rfl⟩
        | ok b =>
            rcases ih ha2 with ⟨e, hme⟩
            exact ⟨e, by rw [hme]; rfl⟩

/-! ### Head analysis for a single-token `"fever"` query -/

/-- On a successfully fitted corpus containing a disease whose cleaned
document is exactly `"fever"`, the query `["Fever"]` gives that disease
score 1, and the first-ranked result carries score 1 and has token set
exactly `{"fever"}`. -/
theorem fever_head_analysis (m : RecommenderModel)
    (rows : List (String × String)) (i : ℕ) (hi : i < rows.length)
    (hdoc : (rows.map fun r => cleanDoc r.2).getD i "" = "fever") :
    ∃ out h,
      (m.fit (.rows rows)).recommend (.pyList [.str "Fever"]) 5 = .ok out ∧
      h < rows.length ∧
      out.head? = some ((rows.map Prod.fst).getD h "", 1) ∧
      (∀ t, t ∈ tfidfTokenize ((rows.map fun r => cleanDoc r.2).getD h "") ↔
        t = "fever") ∧
      (scoreList (rows.map fun r => cleanDoc r.2)
        (rows.map fun r => cleanDoc r.2) "fever").getD i 0 = 1 := by
  have hleni : i < (rows.map fun r => cleanDoc r.2).length := by
    rw [List.length_map]
    exact hi
  have hfeverdoc : "fever" ∈ (rows.map fun r => cleanDoc r.2) := by
    rw [← hdoc]
    exact getD_mem hleni ""
  have htok : tfidfTokenize "fever" = ["fever"] := rfl
  have hfv : "fever" ∈ vocabList (rows.map fun r => cleanDoc r.2) :=
    mem_vocab_of_token hfeverdoc (by rw [htok]; exact List.mem_singleton.mpr rfl)
  have hv : ¬ ((rows.map fun r => cleanDoc r.2).flatMap tfidfTokenize = []) :=
    List.ne_nil_of_mem (mem_sortedDedup.mp hfv)
  have hq : preprocess_symptoms [PyObj.str "Fever"] = "fever" := by decide
  have hcnt : termCount "fever" "fever" ≠ 0 := by decide
  have hraw_ne : tfidfRaw (rows.map fun r => cleanDoc r.2) "fever" "fever" ≠ 0 :=
    ne_of_gt (tfidfRaw_pos_of_mem hfv hcnt)
  have hscore_i : (scoreList (rows.map fun r => cleanDoc r.2)
      (rows.map fun r => cleanDoc r.2) "fever").getD i 0 = 1 := by
    rw [scoreList_getD hleni, hdoc]
    exact cosineSim_self (ne_of_gt (vecNorm2_pos hfv hraw_ne))
  have hslen : (scoreList (rows.map fun r => cleanDoc r.2)
      (rows.map fun r => cleanDoc r.2) "fever").length =
      (rows.map fun r => cleanDoc r.2).length := scoreList_length _ _ _
  have hargl : (argsortDesc (scoreList (rows.map fun r => cleanDoc r.2)
      (rows.map fun r => cleanDoc r.2) "fever")).length =
      (rows.map fun r => cleanDoc r.2).length :=
    (argsortDesc_length _).trans hslen
  cases hA : argsortDesc (scoreList (rows.map fun r => cleanDoc r.2)
      (rows.map fun r => cleanDoc r.2) "fever") with
  | nil =>
      exfalso
      rw [hA] at hargl
      simp at hargl
      omega
  | cons h rest =>
      have hhmem : h ∈ argsortDesc (scoreList (rows.map fun r => cleanDoc r.2)
          (rows.map fun r => cleanDoc r.2) "fever") := by
        rw [hA]
        exact List.mem_cons_self h rest
      have hhlt : h < (rows.map fun r => cleanDoc r.2).length := by
        have := mem_argsortDesc.mp hhmem
        rw [hslen] at this
        exact this
      have hge : (1 : ℝ) ≤ (scoreList (rows.map fun r => cleanDoc r.2)
          (rows.map fun r => cleanDoc r.2) "fever").getD h 0 := by
        rw [← hscore_i]
        exact argsortDesc_head_max hA i (by rw [hslen]; exact hleni)
      have hscore_h_eq : (scoreList (rows.map fun r => cleanDoc r.2)
          (rows.map fun r => cleanDoc r.2) "fever").getD h 0 =
          cosineSim (rows.map fun r => cleanDoc r.2)
            (tfidfRaw (rows.map fun r => cleanDoc r.2) "fever")
            (tfidfRaw (rows.map fun r => cleanDoc r.2)
              ((rows.map fun r => cleanDoc r.2).getD h "")) :=
        scoreList_getD hhlt
      have hle : (scoreList (rows.map fun r => cleanDoc r.2)
          (rows.map fun r => cleanDoc r.2) "fever").getD h 0 ≤ 1 := by
        rw [hscore_h_eq]
        exact single_query_score_le_one htok hfv _
      have hscore_h : (scoreList (rows.map fun r => cleanDoc r.2)
          (rows.map fun r => cleanDoc r.2) "fever").getD h 0 = 1 :=
        le_antisymm hle hge
      have hiff : ∀ t, t ∈ tfidfTokenize
          ((rows.map fun r => cleanDoc r.2).getD h "") ↔ t = "fever" := by
        apply single_query_score_eq_one htok hfv (getD_mem hhlt "")
        rw [← hscore_h_eq]
        exact hscore_h
      have hrec : (m.fit (.rows rows)).recommend (.pyList [.str "Fever"]) 5 =
          .ok ((pySlice (argsortDesc (scoreList (rows.map fun r => cleanDoc r.2)
              (rows.map fun r => cleanDoc r.2) "fever")) 5).map
            fun j => ((rows.map Prod.fst).getD j "",
              (scoreList (rows.map fun r => cleanDoc r.2)
                (rows.map fun r => cleanDoc r.2) "fever").getD j 0)) := by
        rw [fit_rows_success hv, recommend_fitted_eval
          (by rw [List.length_map, List.length_map]), hq]
      refine ⟨_, h, hrec, by rw [List.length_map] at hhlt; exact hhlt, ?_, hiff,
        hscore_i⟩
      rw [hA]
      have hslice : pySlice (h :: rest) (5 : ℤ) = (h :: rest).take 5 := by
        simp [pySlice]
      rw [hslice, List.take_succ_cons, List.map_cons, List.head?_cons,
        hscore_h]

/-! ### Zero queries and scenario evaluations -/

theorem cosineSim_zero_left (docs : List String) (v : String → ℝ) :
    cosineSim docs (fun _ => 0) v = 0 := by
  unfold cosineSim vecDot
  simp

theorem tfidfRaw_empty_query {docs : List String} {q : String}
    (h : tfidfTokenize q = []) : tfidfRaw docs q = fun _ => 0 := by
  funext t
  exact tfidfRaw_of_count_zero (by simp [termCount, h])

/-- Evaluation of the full pipeline for spec scenario A: the one-disease
corpus `{"Flu": {fever, cough}}`, queried with `["Fever","Cough"]` and
`top_n = 1`. -/
theorem scenarioA_eval :
    (RecommenderModel.init.fit (.rows (get_disease_symptom_matrix
        [("Flu", "fever"), ("Flu", "cough")]))).recommend
      (.pyList [.str "Fever", .str "Cough"]) 1 = .ok [("Flu", 1)] := by
  have hgw : get_disease_symptom_matrix [("Flu", "fever"), ("Flu", "cough")] =
      [("Flu", "cough fever")] := by decide
  rw [hgw]
  have hclean : cleanDoc "cough fever" = "cough fever" := by decide
  have hdocs : ([("Flu", "cough fever")].map fun r => cleanDoc r.2) =
      ["cough fever"] := by simp [hclean]
  have hv : ¬ (([("Flu", "cough fever")].map fun r =>
      cleanDoc r.2).flatMap tfidfTokenize = []) := by
    rw [hdocs]
    decide
  have hnames : ([("Flu", "cough fever")].map Prod.fst) = ["Flu"] := by simp
  rw [fit_rows_success hv, hdocs, hnames, recommend_fitted_eval (by simp)]
  have hq : preprocess_symptoms [PyObj.str "Fever", PyObj.str "Cough"] =
      "cough fever" := by decide
  rw [hq]
  have hmem : "cough" ∈ vocabList ["cough fever"] := by decide
  have hne : tfidfRaw ["cough fever"] "cough fever" "cough" ≠ 0 :=
    ne_of_gt (tfidfRaw_pos_of_mem hmem (by decide))
  have hcos : cosineSim ["cough fever"]
      (tfidfRaw ["cough fever"] "cough fever")
      (tfidfRaw ["cough fever"] "cough fever") = 1 :=
    cosineSim_self (ne_of_gt (vecNorm2_pos hmem hne))
  have hscores : scoreList ["cough fever"] ["cough fever"] "cough fever" =
      [1] := by
    unfold scoreList
    simp [hcos]
  rw [hscores, argsortDesc_singleton]
  have hslice : pySlice [(0 : ℕ)] (1 : ℤ) = [0] := by simp [pySlice]
  rw [hslice]
  simp [List.getD]

/-! ## The claims -/

/-- C1 (counterexample): with the symptom `"fever"` carrying severity
level 3 in the severity table, the disease document built for `"Flu"` by
`get_disease_symptom_matrix` and `fit`'s cleaning contains the token
`"fever"` once, not three times — severity is never consulted during
indexing. -/
theorem C1_counterexample :
    get_severity_by_symptom [("fever", "3")] "fever" = some "3" ∧
    get_disease_symptom_matrix [("Flu", "fever")] = [("Flu", "fever")] ∧
    (pySplit (cleanDoc "fever")).count "fever" = 1 ∧ (1 : ℕ) ≠ 3 := by
  decide

/-- C1 (amended): the document handed to the TF-IDF indexer for each
disease lists each symptom token exactly once — the token list of every
cleaned document is duplicate-free, so every token's multiplicity is at
most 1 regardless of any severity data (severity is not an input of the
corpus builder at all). -/
theorem C1_document_tokens_unique (pairs : List (String × String))
    (d doc : String) (hmem : (d, doc) ∈ get_disease_symptom_matrix pairs) :
    (pySplit (cleanDoc doc)).Nodup ∧
    ∀ t, (pySplit (cleanDoc doc)).count t ≤ 1 := by
  have h : pySplit (cleanDoc doc) =
      preprocessTokens ((pySplit doc).map PyObj.str) := by
    unfold cleanDoc preprocessStrs
    exact pySplit_preprocess _
  rw [h]
  exact ⟨sortedDedup_nodup _,
    List.nodup_iff_count_le_one.mp (sortedDedup_nodup _)⟩

/-- Witness for `C1_document_tokens_unique` at the one-disease corpus. -/
theorem C1_witness :
    (("Flu", "fever") ∈ get_disease_symptom_matrix [("Flu", "fever")]) ∧
    ((pySplit (cleanDoc "fever")).Nodup ∧
      ∀ t, (pySplit (cleanDoc "fever")).count t ≤ 1) :=
  ⟨by decide,
    C1_document_tokens_unique [("Flu", "fever")] "Flu" "fever" (by decide)⟩

/-- C7: the normalizer equals the spec's canonical description — keep the
string entries that are non-empty after trimming, lower-case, trim, and
collapse interior whitespace runs to one underscore, deduplicate, sort
ascending, join with single spaces; `["Head Ache"]` and `["head  ache"]`
both yield `"head_ache"`, and an input with no valid entries yields the
empty string. -/
theorem C7_normalizer_characterization :
    (∀ xs : List PyObj, preprocess_symptoms xs = specNormalize xs) ∧
    preprocess_symptoms [.str "Head Ache"] = "head_ache" ∧
    preprocess_symptoms [.str "head  ache"] = "head_ache" ∧
    (∀ xs : List PyObj, xs.filterMap cleanEntry = [] →
      preprocess_symptoms xs = "") := by
  refine ⟨preprocess_eq_specNormalize, by decide, by decide, fun xs h => ?_⟩
  unfold preprocess_symptoms preprocessTokens
  rw [h]
  rfl

/-- Witness for `C7_normalizer_characterization`: an all-invalid input. -/
theorem C7_witness :
    ([PyObj.str "   ", PyObj.other].filterMap cleanEntry = []) ∧
    preprocess_symptoms [PyObj.str "   ", PyObj.other] = "" :=
  ⟨by decide,
    C7_normalizer_characterization.2.2.2 [PyObj.str "   ", PyObj.other]
      (by decide)⟩

/-- C8: normalization is idempotent — re-normalizing the whitespace-split
token list of the normalizer's own output returns that output unchanged. -/
theorem C8_normalize_idempotent (xs : List PyObj) :
    preprocessStrs (pySplit (preprocess_symptoms xs)) =
      preprocess_symptoms xs :=
  preprocess_idem xs

/-- C3 (counterexample): after a successful fit on `{Flu: fever}`, a
re-fit whose TF-IDF construction fails (all documents empty, so
`fit_transform` raises the empty-vocabulary `ValueError`) does **not**
leave the state as it was: the new disease-name list and a fresh unfitted
vectorizer are installed while the old matrix stays, and a subsequent
`recommend` silently returns `[]` instead of using the prior index. -/
theorem C3_counterexample :
    RecommenderModel.init.fit (.rows [("Flu", "fever")]) =
      ⟨["Flu"], some (.fitted ["fever"]), some ["fever"]⟩ ∧
    (RecommenderModel.init.fit (.rows [("Flu", "fever")])).fit
        (.rows [("X", "")]) =
      ⟨["X"], some .unfitted, some ["fever"]⟩ ∧
    (["X"] : List String) ≠ ["Flu"] ∧
    ((RecommenderModel.init.fit (.rows [("Flu", "fever")])).fit
        (.rows [("X", "")])).recommend (.pyList [.str "Fever"]) 5 =
      .ok [] := by
  refine ⟨by decide, by decide, by decide, ?_⟩
  have h : (RecommenderModel.init.fit (.rows [("Flu", "fever")])).fit
      (.rows [("X", "")]) = ⟨["X"], some .unfitted, some ["fever"]⟩ := by
    decide
  rw [h]
  rfl

/-- C3 (amended): a fit that fails at the gateway fetch (or the column
access on the failure `DataFrame`) leaves the state exactly unchanged, but
a fit that fails in the TF-IDF matrix construction leaves a partially
mutated state — the new `disease_names` and an unfitted vectorizer are
installed and only `tfidf_matrix` keeps its prior value — after which
`recommend` returns `.ok []` (the `NotFittedError` is swallowed) rather
than consulting the prior index. -/
theorem C3_failed_fit_states :
    (∀ m : RecommenderModel, m.fit .failure = m) ∧
    (∀ (m : RecommenderModel) (rows : List (String × String)),
      (rows.map fun r => cleanDoc r.2).flatMap tfidfTokenize = [] →
      m.fit (.rows rows) =
        ⟨rows.map Prod.fst, some .unfitted, m.tfidf_matrix⟩) ∧
    (∀ (m : RecommenderModel) (rows : List (String × String))
        (docs0 : List String) (xs : List PyObj) (t : ℤ),
      (rows.map fun r => cleanDoc r.2).flatMap tfidfTokenize = [] →
      m.tfidf_matrix = some docs0 →
      (m.fit (.rows rows)).recommend (.pyList xs) t = .ok []) := by
  refine ⟨fit_failure, fun m rows h => fit_rows_empty_vocab h,
    fun m rows docs0 xs t h hm => ?_⟩
  rw [fit_rows_empty_vocab h, hm]
  rfl

/-- Witness for `C3_failed_fit_states`: the partially mutated state after
the failing re-fit of `C3_counterexample` answers queries with `[]`. -/
theorem C3_witness :
    (([("X", "")].map fun r => cleanDoc r.2).flatMap tfidfTokenize = []) ∧
    (RecommenderModel.init.fit (.rows [("Flu", "fever")])).tfidf_matrix =
      some ["fever"] ∧
    ((RecommenderModel.init.fit (.rows [("Flu", "fever")])).fit
        (.rows [("X", "")])).recommend (.pyList [.str "Cough"]) 3 =
      .ok [] :=
  ⟨by decide, by decide,
    C3_failed_fit_states.2.2 (RecommenderModel.init.fit (.rows [("Flu", "fever")]))
      [("X", "")] ["fever"] [.str "Cough"] 3 (by decide) (by decide)⟩

/-- C5 (counterexample): with a gateway holding no disease–symptom rows,
`fit` does not produce a usable trivial index — the model stays without a
TF-IDF matrix and `recommend` raises the NotFit `RuntimeError` instead of
returning a legitimate empty result. -/
theorem C5_counterexample :
    RecommenderModel.init.fit (.rows []) = ⟨[], some .unfitted, none⟩ ∧
    (RecommenderModel.init.fit (.rows [])).recommend
      (.pyList [.str "fever"]) 5 = .error .runtimeError :=
  ⟨by decide, rfl⟩

/-- C5 (amended): on an empty gateway, `fit_transform` raises the
empty-vocabulary `ValueError`, which `fit` swallows after installing an
empty name list and an unfitted vectorizer; the matrix keeps its prior
value, so on a first fit (`tfidf_matrix = None`) every `recommend` raises
the NotFit `RuntimeError`, and after a prior successful fit `recommend`
silently returns `[]`. -/
theorem C5_empty_gateway_leaves_unfit :
    (∀ m : RecommenderModel,
      m.fit (.rows []) = ⟨[], some .unfitted, m.tfidf_matrix⟩) ∧
    (∀ (m : RecommenderModel) (xs : List PyObj) (t : ℤ),
      m.tfidf_matrix = none →
      (m.fit (.rows [])).recommend (.pyList xs) t = .error .runtimeError) ∧
    (∀ (m : RecommenderModel) (docs0 : List String) (xs : List PyObj) (t : ℤ),
      m.tfidf_matrix = some docs0 →
      (m.fit (.rows [])).recommend (.pyList xs) t = .ok []) := by
  have hv0 : (([] : List (String × String)).map fun r =>
      cleanDoc r.2).flatMap tfidfTokenize = [] := rfl
  refine ⟨fun m => fit_rows_empty_vocab hv0, fun m xs t hm => ?_,
    fun m docs0 xs t hm => ?_⟩
  · rw [fit_rows_empty_vocab hv0, hm]
    rfl
  · rw [fit_rows_empty_vocab hv0, hm]
    rfl

/-- Witness for `C5_empty_gateway_leaves_unfit` on the fresh model. -/
theorem C5_witness :
    RecommenderModel.init.tfidf_matrix = none ∧
    (RecommenderModel.init.fit (.rows [])).recommend
      (.pyList [.str "cough"]) 2 = .error .runtimeError :=
  ⟨rfl, C5_empty_gateway_leaves_unfit.2.1 RecommenderModel.init
    [.str "cough"] 2 rfl⟩

/-- C4 (counterexample): the input guard checks `isinstance(..., list)`
only — a tuple of strings (a sequence of strings that is not a list)
raises `TypeError`, and a list whose element is not a string is accepted
and produces an ordinary result list (the non-string is silently dropped
by normalization, the query vector is zero, and the one disease comes back
with score 0.0) — so the error is **not** raised exactly when the argument
fails to be a sequence of strings. -/
theorem C4_counterexample :
    (RecommenderModel.init.fit (.rows [("Flu", "fever")])).recommend
      (.pyTuple [.str "Fever"]) 5 = .error .typeError ∧
    (RecommenderModel.init.fit (.rows [("Flu", "fever")])).recommend
      (.pyList [.other]) 5 = .ok [("Flu", 0)] := by
  constructor
  · rfl
  · have hst : RecommenderModel.init.fit (.rows [("Flu", "fever")]) =
        ⟨["Flu"], some (.fitted ["fever"]), some ["fever"]⟩ := by decide
    rw [hst, recommend_fitted_eval (by simp)]
    have hq : preprocess_symptoms [PyObj.other] = "" := by decide
    rw [hq]
    have hzero : tfidfRaw ["fever"] "" = fun _ => 0 :=
      tfidfRaw_empty_query rfl
    have hscores : scoreList ["fever"] ["fever"] "" = [0] := by
      unfold scoreList
      rw [hzero]
      simp [cosineSim_zero_left]
    rw [hscores, argsortDesc_singleton]
    have hslice : pySlice [(0 : ℕ)] (5 : ℤ) = [0] := by simp [pySlice]
    rw [hslice]
    simp [List.getD]

/-- C4 (amended): `recommend` raises `TypeError` exactly when the argument
is not a Python `list` (element types are never checked), and raises
`RuntimeError` exactly when the argument is a list but the vectorizer or
the TF-IDF matrix is missing — in particular always before any successful
fit — and in every other case returns an ordinary result list, never one
of these errors. -/
theorem C4_guard_characterization (m : RecommenderModel) (inp : SymInput)
    (t : ℤ) :
    (m.recommend inp t = .error .typeError ↔ inp.isList = false) ∧
    (m.recommend inp t = .error .runtimeError ↔
      inp.isList = true ∧ (m.vectorizer = none ∨ m.tfidf_matrix = none)) := by
  rcases m with ⟨names, v, mat⟩
  cases inp with
  | pyTuple xs => exact ⟨by simp [RecommenderModel.recommend, SymInput.isList],
      by simp [RecommenderModel.recommend, SymInput.isList]⟩
  | pyNone => exact ⟨by simp [RecommenderModel.recommend, SymInput.isList],
      by simp [RecommenderModel.recommend, SymInput.isList]⟩
  | pyList xs =>
      cases v with
      | none =>
          exact ⟨by simp [RecommenderModel.recommend, SymInput.isList],
            by simp [RecommenderModel.recommend, SymInput.isList]⟩
      | some vo =>
          cases mat with
          | none =>
              exact ⟨by simp [RecommenderModel.recommend, SymInput.isList],
                by simp [RecommenderModel.recommend, SymInput.isList]⟩
          | some rd =>
              cases vo with
              | unfitted =>
                  exact ⟨by simp [RecommenderModel.recommend, SymInput.isList],
                    by simp [RecommenderModel.recommend, SymInput.isList]⟩
              | fitted fd =>
                  have hok : ∃ L, RecommenderModel.recommend
                      ⟨names, some (.fitted fd), some rd⟩ (.pyList xs) t =
                        .ok L := by
                    simp only [RecommenderModel.recommend]
                    split
                    · exact ⟨_, rfl⟩
                    · exact ⟨_, rfl⟩
                  rcases hok with ⟨L, hL⟩
                  rw [hL]
                  exact ⟨by simp [SymInput.isList], by simp [SymInput.isList]⟩

/-- C2 (counterexample): with two indexed diseases whose documents are both
exactly `"fever"`, both score exactly 1.0 on the query `["Fever"]`, and the
tie-break (`argsort()[::-1]` reverses a stable ascending sort) puts the
later row first — so the first of them (`"Aflu"`, whose document is exactly
`"fever"`) is *not* ranked first, refuting the claim as stated. -/
theorem C2_counterexample :
    cleanDoc "fever" = "fever" ∧
    get_disease_symptom_matrix [("Aflu", "fever"), ("Bflu", "fever")] =
      [("Aflu", "fever"), ("Bflu", "fever")] ∧
    (RecommenderModel.init.fit (.rows (get_disease_symptom_matrix
        [("Aflu", "fever"), ("Bflu", "fever")]))).recommend
      (.pyList [.str "Fever"]) 5 = .ok [("Bflu", 1), ("Aflu", 1)] ∧
    ("Bflu" : String) ≠ "Aflu" := by
  refine ⟨by decide, by decide, ?_, by decide⟩
  have hgw : get_disease_symptom_matrix [("Aflu", "fever"), ("Bflu", "fever")] =
      [("Aflu", "fever"), ("Bflu", "fever")] := by decide
  rw [hgw]
  exact recommend_pair_fever "Aflu" "Bflu"

/-- C2 (amended): on any fitted index, a disease whose cleaned document is
exactly `"fever"` receives raw cosine score exactly 1 on the query
`["Fever"]`, the first-ranked result has score exactly 1 and its document's
token set is exactly `{"fever"}`; when the index of the `"fever"` document
is unique in that sense, that disease is ranked first.  In particular, for
the one-disease corpus `{"Flu": {fever, cough}}`,
`recommend(["Fever","Cough"], top_n=1)` returns `[("Flu", 1.0)]`. -/
theorem C2_fever_exact_match :
    (∀ (m : RecommenderModel) (rows : List (String × String)) (i : ℕ),
      i < rows.length →
      (rows.map fun r => cleanDoc r.2).getD i "" = "fever" →
      ∃ out h,
        (m.fit (.rows rows)).recommend (.pyList [.str "Fever"]) 5 = .ok out ∧
        h < rows.length ∧
        out.head? = some ((rows.map Prod.fst).getD h "", 1) ∧
        (∀ t, t ∈ tfidfTokenize ((rows.map fun r => cleanDoc r.2).getD h "") ↔
          t = "fever") ∧
        (scoreList (rows.map fun r => cleanDoc r.2)
          (rows.map fun r => cleanDoc r.2) "fever").getD i 0 = 1 ∧
        ((∀ j, j < rows.length →
            (∀ t, t ∈ tfidfTokenize
              ((rows.map fun r => cleanDoc r.2).getD j "") ↔ t = "fever") →
            j = i) → h = i)) ∧
    (RecommenderModel.init.fit (.rows (get_disease_symptom_matrix
        [("Flu", "fever"), ("Flu", "cough")]))).recommend
      (.pyList [.str "Fever", .str "Cough"]) 1 = .ok [("Flu", 1)] := by
  refine ⟨fun m rows i hi hdoc => ?_, scenarioA_eval⟩
  rcases fever_head_analysis m rows i hi hdoc with
    ⟨out, h, hrec, hhlt, hhead, hiff, hscorei⟩
  exact ⟨out, h, hrec, hhlt, hhead, hiff, hscorei,
    fun huniq => huniq h hhlt hiff⟩

/-- Witness for `C2_fever_exact_match` on the one-disease corpus
`{Flu: fever}`. -/
theorem C2_witness :
    (0 < ([("Flu", "fever")] : List (String × String)).length) ∧
    (([("Flu", "fever")].map fun r => cleanDoc r.2).getD 0 "" = "fever") ∧
    ∃ out h,
      (RecommenderModel.init.fit (.rows [("Flu", "fever")])).recommend
        (.pyList [.str "Fever"]) 5 = .ok out ∧
      h < ([("Flu", "fever")] : List (String × String)).length ∧
      out.head? = some (([("Flu", "fever")].map Prod.fst).getD h "", 1) ∧
      (∀ t, t ∈ tfidfTokenize
        (([("Flu", "fever")].map fun r => cleanDoc r.2).getD h "") ↔
        t = "fever") ∧
      (scoreList ([("Flu", "fever")].map fun r => cleanDoc r.2)
        ([("Flu", "fever")].map fun r => cleanDoc r.2) "fever").getD 0 0 = 1 ∧
      ((∀ j, j < ([("Flu", "fever")] : List (String × String)).length →
          (∀ t, t ∈ tfidfTokenize
            (([("Flu", "fever")].map fun r => cleanDoc r.2).getD j "") ↔
            t = "fever") →
          j = 0) → h = 0) :=
  ⟨by decide, by decide,
    C2_fever_exact_match.1 RecommenderModel.init [("Flu", "fever")] 0
      (by decide) (by decide)⟩

/-- The hypothetical per-disease severity assignment of claim C6: the
symptom `"fever"` carried at weight 5 by `"Asev5"` and at weight 1 by
`"Zsev1"`.  (The storage schema keys severity by symptom alone, so such an
assignment can only live outside the gateway; nothing in `fit` or
`recommend` reads it.) -/
def dsevEx : String → String → Option ℕ := fun d s =>
  if d = "Asev5" ∧ s = "fever" then some 5
  else if d = "Zsev1" ∧ s = "fever" then some 1
  else none

/-- C6 (counterexample): two diseases with identical symptom documents, one
carrying the queried symptom at severity weight 5 and the other at weight
1.  Querying that symptom alone gives both exactly equal scores (severity
never reaches the index), and the tie-break ranks the weight-**1** disease
first — the weight-5 disease lands strictly below it, refuting the
position part of the claim. -/
theorem C6_counterexample :
    dsevEx "Asev5" "fever" = some 5 ∧
    dsevEx "Zsev1" "fever" = some 1 ∧
    get_disease_symptom_matrix [("Asev5", "fever"), ("Zsev1", "fever")] =
      [("Asev5", "fever"), ("Zsev1", "fever")] ∧
    (RecommenderModel.init.fit (.rows (get_disease_symptom_matrix
        [("Asev5", "fever"), ("Zsev1", "fever")]))).recommend
      (.pyList [.str "Fever"]) 5 = .ok [("Zsev1", 1), ("Asev5", 1)] ∧
    ("Zsev1" : String) ≠ "Asev5" := by
  refine ⟨by decide, by decide, by decide, ?_, by decide⟩
  have hgw : get_disease_symptom_matrix
      [("Asev5", "fever"), ("Zsev1", "fever")] =
      [("Asev5", "fever"), ("Zsev1", "fever")] := by decide
  rw [hgw]
  exact recommend_pair_fever "Asev5" "Zsev1"

/-- C6 (amended): severity data — of any shape, including a hypothetical
per-disease assignment — never reaches the scorer, so two indexed diseases
with identical symptom documents always receive exactly equal similarity
scores on every query; the weight-5 disease's score is therefore `≥` the
weight-1 disease's (with equality), while their relative positions are
decided only by the row-order tie-break. -/
theorem C6_severity_ignored (dsev : String → String → Option ℕ)
    (fitDocs rowDocs : List String) (q : String) (i j : ℕ)
    (hi : i < rowDocs.length) (hj : j < rowDocs.length)
    (hij : rowDocs.getD i "" = rowDocs.getD j "") :
    (scoreList fitDocs rowDocs q).getD i 0 =
      (scoreList fitDocs rowDocs q).getD j 0 ∧
    (scoreList fitDocs rowDocs q).getD j 0 ≤
      (scoreList fitDocs rowDocs q).getD i 0 := by
  have h : (scoreList fitDocs rowDocs q).getD i 0 =
      (scoreList fitDocs rowDocs q).getD j 0 := by
    rw [scoreList_getD hi, scoreList_getD hj, hij]
  exact ⟨h, le_of_eq h.symm⟩

/-- Witness for `C6_severity_ignored` on the two-disease `"fever"` corpus
with the `dsevEx` severities. -/
theorem C6_witness :
    (0 < (["fever", "fever"] : List String).length) ∧
    (1 < (["fever", "fever"] : List String).length) ∧
    ((["fever", "fever"] : List String).getD 0 "" =
      (["fever", "fever"] : List String).getD 1 "") ∧
    ((scoreList ["fever", "fever"] ["fever", "fever"] "fever").getD 0 0 =
      (scoreList ["fever", "fever"] ["fever", "fever"] "fever").getD 1 0 ∧
    (scoreList ["fever", "fever"] ["fever", "fever"] "fever").getD 1 0 ≤
      (scoreList ["fever", "fever"] ["fever", "fever"] "fever").getD 0 0) :=
  ⟨by decide, by decide, by decide,
    C6_severity_ignored dsevEx ["fever", "fever"] ["fever", "fever"] "fever"
      0 1 (by decide) (by decide) (by decide)⟩

theorem recommend_with_details_eq_of_error {env : CtrlEnv} {e : PyErr}
    (h : (env.recommendResult.bind fun raw =>
        raw.mapM fun p =>
          (env.get_symptoms_by_disease p.1).bind fun syms =>
            (env.get_precautions_by_disease p.1).bind fun precs =>
              (.ok ⟨p.1, p.2, syms, precs⟩ : Except PyErr DetailEntry)) =
      .error e) :
    recommend_with_details env = [] := by
  unfold recommend_with_details
  rw [h]

/-- C9: `recommend_with_details` returns `[]` whenever any internal step
raises — a raise from the ranking call, or from the symptom or precaution
lookup of any single ranked disease, makes the whole call yield the empty
list; and by construction (`recommend_with_details` is a total function
into `List DetailEntry`) no exception ever propagates to the caller. -/
theorem C9_details_fail_soft (env : CtrlEnv)
    (h : (∃ e, env.recommendResult = .error e) ∨
      ∃ raw, env.recommendResult = .ok raw ∧ ∃ p ∈ raw,
        (∃ e, env.get_symptoms_by_disease p.1 = .error e) ∨
        (∃ e, env.get_precautions_by_disease p.1 = .error e)) :
    recommend_with_details env = [] := by
  rcases h with ⟨e, he⟩ | ⟨raw, hraw, p, hp, hbad⟩
  · exact recommend_with_details_eq_of_error (by rw [he]; rfl)
  · have hf : ∃ e, ((env.get_symptoms_by_disease p.1).bind fun syms =>
        (env.get_precautions_by_disease p.1).bind fun precs =>
          (.ok ⟨p.1, p.2, syms, precs⟩ : Except PyErr DetailEntry)) =
        .error e := by
      rcases hbad with ⟨e, hse⟩ | ⟨e, hpe⟩
      · exact ⟨e, by rw [hse]; rfl⟩
      · cases hs : env.get_symptoms_by_disease p.1 with
        | error e2 => exact ⟨e2, rfl⟩
        | ok syms => exact ⟨e, by rw [hpe]; rfl⟩
    rcases @mapM_error_of_mem (String × ℝ) DetailEntry
      (fun p => (env.get_symptoms_by_disease p.1).bind fun syms =>
        (env.get_precautions_by_disease p.1).bind fun precs =>
          (.ok ⟨p.1, p.2, syms, precs⟩ : Except PyErr DetailEntry))
      raw p hp hf with ⟨e2, hm⟩
    exact recommend_with_details_eq_of_error (by rw [hraw]; exact hm)

/-- Witness for `C9_details_fail_soft`: one ranked disease whose symptom
lookup raises. -/
theorem C9_witness :
    recommend_with_details
      ⟨.ok [("Flu", 1)], fun _ => .error .storageError,
        fun _ => .ok (none : Option (List String))⟩ = [] :=
  C9_details_fail_soft _
    (Or.inr ⟨[("Flu", 1)], rfl, ("Flu", 1), List.mem_singleton.mpr rfl,
      Or.inl ⟨.storageError, rfl⟩⟩)

/-- C10: on a successfully fitted model, `recommend` with `top_n = 0`
returns `[]`, and with a negative `top_n = -k` it returns the first
`max(n - k, 0)` entries of the full ranking (Python slicing `[:-k]`),
rather than raising or returning all `n` results. -/
theorem C10_topn_zero_and_negative (m : RecommenderModel)
    (rows : List (String × String))
    (hv : ¬ (rows.map fun r => cleanDoc r.2).flatMap tfidfTokenize = [])
    (xs : List PyObj) (k : ℕ) (hk : 0 < k) :
    (m.fit (.rows rows)).recommend (.pyList xs) 0 = .ok [] ∧
    ∃ L, (m.fit (.rows rows)).recommend (.pyList xs) (rows.length : ℤ) =
        .ok L ∧
      L.length = rows.length ∧
      (m.fit (.rows rows)).recommend (.pyList xs) (-(k : ℤ)) =
        .ok (L.take (rows.length - k)) ∧
      (L.take (rows.length - k)).length = rows.length - k := by
  rw [fit_rows_success hv]
  have hlen : (rows.map fun r => cleanDoc r.2).length ≤
      (rows.map Prod.fst).length := by
    rw [List.length_map, List.length_map]
  have hslen : (scoreList (rows.map fun r => cleanDoc r.2)
      (rows.map fun r => cleanDoc r.2) (preprocess_symptoms xs)).length =
      rows.length := by
    rw [scoreList_length, List.length_map]
  have hargl : (argsortDesc (scoreList (rows.map fun r => cleanDoc r.2)
      (rows.map fun r => cleanDoc r.2) (preprocess_symptoms xs))).length =
      rows.length := (argsortDesc_length _).trans hslen
  constructor
  · rw [recommend_fitted_eval hlen, pySlice_zero]
    rfl
  · refine ⟨(argsortDesc (scoreList (rows.map fun r => cleanDoc r.2)
        (rows.map fun r => cleanDoc r.2) (preprocess_symptoms xs))).map
          (fun i => ((rows.map Prod.fst).getD i "",
            (scoreList (rows.map fun r => cleanDoc r.2)
              (rows.map fun r => cleanDoc r.2)
              (preprocess_symptoms xs)).getD i 0)), ?_, ?_, ?_, ?_⟩
    · rw [recommend_fitted_eval hlen, pySlice_nonneg, ← hargl,
        List.take_length]
    · rw [List.length_map, hargl]
    · rw [recommend_fitted_eval hlen, pySlice_neg _ k hk, hargl,
        List.map_take]
    · rw [List.length_take, List.length_map, hargl]
      omega

/-- Witness for `C10_topn_zero_and_negative`: one indexed disease,
`top_n = 0` and `top_n = -1`. -/
theorem C10_witness :
    (¬ (([("Flu", "fever")].map fun r =>
      cleanDoc r.2).flatMap tfidfTokenize = [])) ∧
    (0 < 1) ∧
    ((RecommenderModel.init.fit (.rows [("Flu", "fever")])).recommend
        (.pyList [.str "Fever"]) 0 = .ok [] ∧
      ∃ L, (RecommenderModel.init.fit
          (.rows [("Flu", "fever")])).recommend (.pyList [.str "Fever"])
          (([("Flu", "fever")] : List (String × String)).length : ℤ) =
          .ok L ∧
        L.length = ([("Flu", "fever")] : List (String × String)).length ∧
        (RecommenderModel.init.fit
          (.rows [("Flu", "fever")])).recommend (.pyList [.str "Fever"])
          (-((1 : ℕ) : ℤ)) =
          .ok (L.take (([("Flu", "fever")] :
            List (String × String)).length - 1)) ∧
        (L.take (([("Flu", "fever")] :
          List (String × String)).length - 1)).length =
          ([("Flu", "fever")] : List (String × String)).length - 1) :=
  ⟨by decide, by decide,
    C10_topn_zero_and_negative RecommenderModel.init [("Flu", "fever")]
      (by decide) [.str "Fever"] 1 (by decide)⟩
